import Mathlib

/-!
Verification of the MCDashboard bot manager (`backend/src/bot-manager.ts`).

The TypeScript `BotManager` class is shallowly embedded here: its in-memory
account map, SQLite-backed account table and connection-handle map become an
explicit `ManagerState`; each method becomes a pure function from state to
state, additionally returning the list of `update` event payloads it emits
(each payload is the full account list at emission time, as produced by
`getAccounts`).  Times (`new Date().toLocaleTimeString()`) and the opener
outcome of the external protocol libraries (`mineflayer.createBot`,
`bedrock-protocol.createClient`) are nondeterministic inputs, so they are
passed as explicit parameters.  Numeric stat values (`parseFloat` results
scaled by k/m/b multipliers) are modelled as exact rationals.
-/

namespace MCDashboard

/-- Source `export type BotType = 'java' | 'bedrock'`. -/
inductive BotType
  | java
  | bedrock
deriving DecidableEq, Repr

/-- The four keys of the `BotStats` record. -/
inductive StatKey
  | shards
  | money
  | kills
  | deaths
deriving DecidableEq, Repr

/-- Source `interface BotStats { shards; money; kills; deaths }`, values as exact rationals. -/
structure BotStats where
  shards : ℚ
  money : ℚ
  kills : ℚ
  deaths : ℚ
deriving DecidableEq, Repr

/-- The four connection states of `BotAccount.status`. -/
inductive BotStatus
  | online
  | offline
  | connecting
  | error
deriving DecidableEq, Repr

/-- Source `interface BotAccount` from bot-manager.ts. -/
structure BotAccount where
  id : String
  username : String
  type : BotType
  status : BotStatus
  logs : List String
  accountData : BotStats
deriving DecidableEq, Repr

/-- Read one field of a `BotStats` record (`account.accountData[key]`). -/
def statGet (st : BotStats) : StatKey → ℚ
  | .shards => st.shards
  | .money => st.money
  | .kills => st.kills
  | .deaths => st.deaths

/-- Overwrite one field of a `BotStats` record (`account.accountData[key] = v`). -/
def statSet (st : BotStats) : StatKey → ℚ → BotStats
  | .shards, v => { st with shards := v }
  | .money, v => { st with money := v }
  | .kills, v => { st with kills := v }
  | .deaths, v => { st with deaths := v }

/-- Initial stats of a fresh account: `{ shards: 0, money: 0, kills: 0, deaths: 0 }`. -/
def zeroStats : BotStats := ⟨0, 0, 0, 0⟩

/-!
### Text utilities

The extractor works on JS strings; we model them as lists of unicode scalars
(`List Char`), which is faithful for all the ASCII-plus-glyph text involved.
-/

/-- Source `needle` is a leading segment of `hay` (the anchored part of `String.includes`). -/
def startsWith : List Char → List Char → Bool
  | [], _ => true
  | _ :: _, [] => false
  | a :: as, b :: bs => a = b && startsWith as bs

/-- JS `hay.includes(needle)`: `needle` occurs contiguously somewhere in `hay`. -/
def containsSub (needle : List Char) : List Char → Bool
  | [] => needle.isEmpty
  | c :: rest => startsWith needle (c :: rest) || containsSub needle rest

/-- The text after the first occurrence of `needle`, if `needle` occurs. -/
def afterFirst (needle : List Char) : List Char → Option (List Char)
  | [] => none
  | c :: rest =>
    if startsWith needle (c :: rest) then some ((c :: rest).drop needle.length)
    else afterFirst needle rest

/-- The text before the first occurrence of `needle` (all of it if absent). -/
def beforeFirst (needle : List Char) : List Char → List Char
  | [] => []
  | c :: rest =>
    if startsWith needle (c :: rest) then []
    else c :: beforeFirst needle rest

/-- JS `String.prototype.trim` restricted to ASCII whitespace. -/
def trimChars (cs : List Char) : List Char :=
  ((cs.dropWhile Char.isWhitespace).reverse.dropWhile Char.isWhitespace).reverse

/-- The four characters the JS regex dot does not match: LF, CR, LS, PS. -/
def isLineTerminator (c : Char) : Bool :=
  c = '\n' || c = '\r' || c = '\u2028' || c = '\u2029'

/-- Source `rawText.replace(/§./g, '')`: drop each `§` together with the following
character; a `§` before a line terminator or at the end of text survives,
since the regex dot matches neither of those. -/
def stripSection : List Char → List Char
  | [] => []
  | c :: rest =>
    if c = '§' then
      match rest with
      | [] => ['§']
      | c2 :: rest2 =>
        if isLineTerminator c2 then '§' :: stripSection (c2 :: rest2) else stripSection rest2
    else c :: stripSection rest

/-- The character class `[0-9a-fk-or]` of Minecraft color codes. -/
def isColorCode (c : Char) : Bool :=
  (('0' ≤ c && c ≤ '9') || ('a' ≤ c && c ≤ 'f')) || (('k' ≤ c && c ≤ 'o') || c = 'r')

/-- Source `text.replace(/§[0-9a-fk-or]/g, '')`, used on scoreboard display names. -/
def stripScoreColor : List Char → List Char
  | [] => []
  | c :: rest =>
    if c = '§' then
      match rest with
      | [] => ['§']
      | c2 :: rest2 =>
        if isColorCode c2 then stripScoreColor rest2 else '§' :: stripScoreColor (c2 :: rest2)
    else c :: stripScoreColor rest

/-- The decorative glyphs removed by `replace(/[★$🗡☠⌛⌚]/g, '')`. -/
def glyphSet : List Char := ['★', '$', '🗡', '☠', '⌛', '⌚']

/-- The "Unified Cleanup" of `updateStat`: strip `§`-pairs, strip glyphs,
lowercase. -/
def cleanText (raw : List Char) : List Char :=
  ((stripSection raw).filter (fun c => !glyphSet.contains c)).map Char.toLower

/-!
### The numeric-suffix grammar

`/(\d+\.?\d*)([kmb])?/` applied unanchored: the match starts at the first
digit, takes a maximal digit run, an optional dot with a maximal digit run,
then an optional `k`/`m`/`b` suffix immediately after.
-/

/-- The optional `[kmb]` suffix directly at the head of the remaining text. -/
def numSuffix : List Char → Option Char
  | [] => none
  | c :: _ => if c = 'k' || c = 'm' || c = 'b' then some c else none

/-- First match of `/(\d+\.?\d*)([kmb])?/`: integer digits, fractional digits,
optional suffix; `none` when the text has no digit at all. -/
def matchFirstNum : List Char → Option (List Char × List Char × Option Char)
  | [] => none
  | c :: rest =>
    if c.isDigit then
      let ds := (c :: rest).takeWhile Char.isDigit
      match (c :: rest).dropWhile Char.isDigit with
      | '.' :: r2 => some (ds, r2.takeWhile Char.isDigit, numSuffix (r2.dropWhile Char.isDigit))
      | r1 => some (ds, [], numSuffix r1)
    else matchFirstNum rest

/-- Decimal value of a digit string (leading zeros allowed). -/
def digitsToNat : List Char → Nat
  | [] => 0
  | c :: cs => digitsToNatAux (c.toNat - 48) cs
where
  digitsToNatAux (acc : Nat) : List Char → Nat
    | [] => acc
    | c :: cs => digitsToNatAux (acc * 10 + (c.toNat - 48)) cs

/-- Source `{ k: 1e3, m: 1e6, b: 1e9 }[suffix] || 1`. -/
def multiplierOf : Option Char → Nat
  | some c => if c = 'k' then 1000 else if c = 'm' then 1000000 else if c = 'b' then 1000000000 else 1
  | none => 1

/-- Source `parseFloat(match[1]) * multiplier` as an exact rational: the decimal
`ds.fs` is the fraction `(ds·10^k + fs) / 10^k` with `k` fractional digits,
written as a single integer fraction so it evaluates by kernel reduction. -/
def numValue (ds fs : List Char) (suf : Option Char) : ℚ :=
  Rat.divInt ((digitsToNat ds * 10 ^ fs.length + digitsToNat fs) * multiplierOf suf : ℤ)
    ((10 : ℤ) ^ fs.length)

/-!
### Label identification and extraction (`updateStat`, pure part)
-/

/-- The label substring that identifies each extractable stat key. -/
def labelStr : StatKey → List Char
  | .money => "money".data
  | .shards => "shards".data
  | .kills => "kills".data
  | .deaths => "deaths".data

/-- Source `['money', 'shards'].find(l => clean.includes(l))`: the first label of the
fixed vocabulary list that occurs in the cleaned text. -/
def findLabel (clean : List Char) : Option StatKey :=
  if containsSub ("money".data) clean then some .money
  else if containsSub ("shards".data) clean then some .shards
  else none

/-- Pure part of `BotManager.updateStat`: reject falsy / `"undefined"` input,
clean the text, identify a label, take `clean.split(label)[1]` trimmed, and
run the numeric-suffix grammar on it. -/
def extractStat (raw : String) : Option (StatKey × ℚ) :=
  if raw = "" ∨ raw = "undefined" then none
  else
    let clean := cleanText raw.data
    match findLabel clean with
    | none => none
    | some key =>
      let valuePart := trimChars (beforeFirst (labelStr key) ((afterFirst (labelStr key) clean).getD []))
      match matchFirstNum valuePart with
      | some (ds, fs, suf) => some (key, numValue ds fs suf)
      | none => none

/-!
### Manager state and operations

`ManagerState` packages the three pieces of mutable state of `BotManager`:
`bots` (ids with an active connection handle), `accounts` (the in-memory
`Map`, insertion-ordered) and `db` (the SQLite `accounts` table rows).
Each method returns, besides the new state, the list of `update` emissions
(`this.emit('update', this.getAccounts())`) in order; each entry is the
account list at emission time.
-/

/-- The mutable state of a `BotManager` instance. -/
structure ManagerState where
  bots : List String
  accounts : List BotAccount
  db : List (String × String × BotType)
deriving DecidableEq, Repr

/-- Source `getAccounts(): Array.from(this.accounts.values())`. -/
def getAccounts (s : ManagerState) : List BotAccount := s.accounts

/-- Source `this.accounts.get(id)`. -/
def findAccount (s : ManagerState) (id : String) : Option BotAccount :=
  s.accounts.find? (fun a => a.id == id)

/-- In-place mutation of the account object stored under `id`. -/
def modifyAccount (s : ManagerState) (id : String) (f : BotAccount → BotAccount) : ManagerState :=
  { s with accounts := s.accounts.map (fun a => if a.id == id then f a else a) }

/-- Source `this.accounts.has(id)` (membership in the in-memory map). -/
def mapHasId (s : ManagerState) (id : String) : Bool :=
  s.accounts.any (fun a => a.id == id)

/-- Membership of `id` in the persisted `accounts` table (its PRIMARY KEY). -/
def dbHasId (s : ManagerState) (id : String) : Bool :=
  s.db.any (fun r => r.1 == id)

/-- Source `this.bots.has(id)` (an active connection handle exists). -/
def botsHasId (s : ManagerState) (id : String) : Bool :=
  s.bots.any (fun b => b == id)

/-- Source `Map.set` semantics on the insertion-ordered account map. -/
def mapSet (l : List BotAccount) (a : BotAccount) : List BotAccount :=
  if l.any (fun b => b.id == a.id) then l.map (fun b => if b.id == a.id then a else b)
  else l ++ [a]

/-- Source `this.bots.set(id, bot)` (only handle presence is modelled). -/
def botsSet (l : List String) (id : String) : List String :=
  if l.any (fun b => b == id) then l else l ++ [id]

/-- Source `` `[${new Date().toLocaleTimeString()}] ${message}` ``; the clock reading
is the explicit `now` parameter. -/
def stamped (now msg : String) : String := "[" ++ now ++ "] " ++ msg

/-- The log-append step of `BotManager.log`: push, then
`if (account.logs.length > 100) account.logs.shift()`. -/
def pushLog (logs : List String) (entry : String) : List String :=
  if (logs ++ [entry]).length > 100 then (logs ++ [entry]).tail else logs ++ [entry]

/-- Source `BotManager.log(id, message)`: no-op when the account is missing,
otherwise append a stamped entry (evicting the oldest past 100) and emit. -/
def log (s : ManagerState) (now id msg : String) : ManagerState × List (List BotAccount) :=
  match findAccount s id with
  | none => (s, [])
  | some _ =>
    let s' := modifyAccount s id (fun a => { a with logs := pushLog a.logs (stamped now msg) })
    (s', [getAccounts s'])

/-- The rejection raised by the `INSERT` when the PRIMARY KEY `id` already
exists in the `accounts` table. -/
inductive AddError
  | duplicateId
deriving DecidableEq, Repr

instance : DecidableEq (Except AddError Unit) := fun a b =>
  match a, b with
  | .ok (), .ok () => isTrue rfl
  | .ok (), .error _ => isFalse (fun h => Except.noConfusion h)
  | .error _, .ok () => isFalse (fun h => Except.noConfusion h)
  | .error .duplicateId, .error .duplicateId => isTrue rfl

/-- Source `BotManager.addAccount`: `INSERT INTO accounts` (throwing on a duplicate
PRIMARY KEY before any state is touched), then mirror the account in memory
with status `'offline'`, empty logs and zero stats, then emit. -/
def addAccount (s : ManagerState) (id username : String) (ty : BotType) :
    ManagerState × List (List BotAccount) × Except AddError Unit :=
  if dbHasId s id then (s, [], .error .duplicateId)
  else
    let acct : BotAccount :=
      { id := id, username := username, type := ty, status := .offline,
        logs := [], accountData := zeroStats }
    let s' := { s with db := s.db ++ [(id, username, ty)], accounts := mapSet s.accounts acct }
    (s', [getAccounts s'], .ok ())

/-- Which graceful-close command `disconnectBot` issues on the handle:
`bot.quit()` for java accounts, `bot.close()` otherwise. -/
inductive CloseKind
  | quit
  | close
deriving DecidableEq, Repr

/-- Source `BotManager.disconnectBot(id)`: no-op without an active handle; otherwise
log the manual-disconnect message, issue the variant-specific close on the
handle and discard the handle.  The account's status is not touched. -/
def disconnectBot (s : ManagerState) (now id : String) :
    ManagerState × List (List BotAccount) × Option CloseKind :=
  if botsHasId s id then
    let p := log s now id "🔌 Disconnecting manually..."
    let ck := if (findAccount p.1 id).map (·.type) = some BotType.java
      then CloseKind.quit else CloseKind.close
    ({ p.1 with bots := p.1.bots.filter (fun b => !(b == id)) }, p.2, some ck)
  else (s, [], none)

/-- Source `BotManager.removeAccount(id)`: disconnect first, then `DELETE` the row,
then drop the in-memory entry, then emit. -/
def removeAccount (s : ManagerState) (now id : String) :
    ManagerState × List (List BotAccount) :=
  let d := disconnectBot s now id
  let s' := { d.1 with db := d.1.db.filter (fun r => !(r.1 == id)),
                       accounts := d.1.accounts.filter (fun a => !(a.id == id)) }
  (s', d.2.1 ++ [getAccounts s'])

/-- Rendering of `account.type` inside the connecting log template. -/
def typeName : BotType → String
  | .java => "java"
  | .bedrock => "bedrock"

/-- Source `BotManager.connectJava` up to handler registration: `mineflayer.createBot`
either yields a handle (stored in `bots`) or throws, in which case the `catch`
logs the failure and nothing else happens.  `openerThrows`/`errMsg` stand for
the external library's construction-time behaviour. -/
def connectJava (s : ManagerState) (now : String) (openerThrows : Bool) (errMsg : String)
    (id : String) : ManagerState × List (List BotAccount) :=
  if openerThrows then log s now id ("Connection failed: " ++ errMsg)
  else ({ s with bots := botsSet s.bots id }, [])

/-- Source `BotManager.connectBedrock` up to handler registration, as `connectJava`
but with `bedrock-protocol.createClient` and its failure log text. -/
def connectBedrock (s : ManagerState) (now : String) (openerThrows : Bool) (errMsg : String)
    (id : String) : ManagerState × List (List BotAccount) :=
  if openerThrows then log s now id ("Bedrock Connection failed: " ++ errMsg)
  else ({ s with bots := botsSet s.bots id }, [])

/-- Source `BotManager.connectBot(id)`: return immediately when the account is
missing or already online; otherwise set status `'connecting'`, emit, log the
connecting message, and invoke the variant-specific opener.  The third
component records which variant's opener was invoked, if any. -/
def connectBot (s : ManagerState) (now serverIp : String) (openerThrows : Bool)
    (errMsg : String) (id : String) :
    ManagerState × List (List BotAccount) × Option BotType :=
  match findAccount s id with
  | none => (s, [], none)
  | some account =>
    if account.status = .online then (s, [], none)
    else
      let s1 := modifyAccount s id (fun a => { a with status := .connecting })
      let p := log s1 now id ("Connecting to " ++ serverIp ++ " (" ++ typeName account.type ++ ")...")
      let q := if account.type = .java then connectJava p.1 now openerThrows errMsg id
               else connectBedrock p.1 now openerThrows errMsg id
      (q.1, [getAccounts s1] ++ p.2 ++ q.2, some account.type)

/-- Source `BotManager.updateStat(id, rawText)`: extract a `(label, value)` pair from
the raw text and overwrite the stored stat and emit only when the value
differs from the stored one. -/
def updateStat (s : ManagerState) (id : String) (raw : String) :
    ManagerState × List (List BotAccount) :=
  match findAccount s id with
  | none => (s, [])
  | some a =>
    match extractStat raw with
    | none => (s, [])
    | some (key, v) =>
      if statGet a.accountData key = v then (s, [])
      else
        let s' := modifyAccount s id (fun b => { b with accountData := statSet b.accountData key v })
        (s', [getAccounts s'])

/-- The helper `updateNumericStat(key, searchStr)` inside the `scoreUpdated`
handler of `connectJava`: a case-sensitive `includes(searchStr)` on the
color-stripped text, then the numeric grammar on the whole lowercased text,
overwriting `accountData[key]` when the value differs and reporting whether
it changed. -/
def updateNumericStat (cleanT : List Char) (st : BotStats) (key : StatKey)
    (searchStr : List Char) : BotStats × Bool :=
  if containsSub searchStr cleanT then
    match matchFirstNum (cleanT.map Char.toLower) with
    | some (ds, fs, suf) =>
      let finalVal := numValue ds fs suf
      if statGet st key = finalVal then (st, false) else (statSet st key finalVal, true)
    | none => (st, false)
  else (st, false)

/-- The body of the `scoreUpdated` handler in `connectJava`, applied to the
display text of the updated scoreboard item: strip `§`-color codes, run
`updateNumericStat` for `'Shards'` then `'Money'`, and emit once if either
changed. -/
def scoreUpdated (s : ManagerState) (id : String) (text : List Char) :
    ManagerState × List (List BotAccount) :=
  match findAccount s id with
  | none => (s, [])
  | some a =>
    let cleanT := stripScoreColor text
    let r1 := updateNumericStat cleanT a.accountData .shards ("Shards".data)
    let r2 := updateNumericStat cleanT r1.1 .money ("Money".data)
    if r1.2 || r2.2 then
      let s' := modifyAccount s id (fun b => { b with accountData := r2.1 })
      (s', [getAccounts s'])
    else (s, [])

/-!
### Helper lemmas
-/

theorem toNat_ofNat_valid {n : Nat} (h : n.isValidChar) : (Char.ofNat n).toNat = n := by
  rw [Char.ofNat, dif_pos h]
  rfl

theorem toUpper_eq_iff {g : Char} (h65 : ¬(g.toNat ≥ 65 ∧ g.toNat ≤ 90))
    (h97 : ¬(g.toNat ≥ 97 ∧ g.toNat ≤ 122)) (c : Char) : c.toUpper = g ↔ c = g := by
  constructor
  · intro h
    by_cases hc : c.toNat ≥ 97 ∧ c.toNat ≤ 122
    · exfalso
      have hv : (c.toNat - 32).isValidChar := Or.inl (by omega)
      have ht : (c.toUpper).toNat = c.toNat - 32 := by
        simp only [Char.toUpper]
        rw [if_pos hc, toNat_ofNat_valid hv]
      rw [h] at ht
      omega
    · simp only [Char.toUpper] at h
      rwa [if_neg hc] at h
  · intro h
    subst h
    simp only [Char.toUpper]
    rw [if_neg h97]

theorem toLower_toUpper (c : Char) : c.toUpper.toLower = c.toLower := by
  simp only [Char.toUpper, Char.toLower]
  by_cases h : c.toNat ≥ 97 ∧ c.toNat ≤ 122
  · have hv : (c.toNat - 32).isValidChar := Or.inl (by omega)
    rw [if_pos h, toNat_ofNat_valid hv]
    rw [if_pos (by omega : (c.toNat - 32) ≥ 65 ∧ (c.toNat - 32) ≤ 90)]
    rw [if_neg (by omega : ¬(c.toNat ≥ 65 ∧ c.toNat ≤ 90))]
    have h32 : c.toNat - 32 + 32 = c.toNat := by omega
    rw [h32, Char.ofNat_toNat]
  · rw [if_neg h]

theorem toUpper_of_lineTerminator {c : Char} (h : isLineTerminator c = true) :
    c.toUpper = c := by
  simp only [isLineTerminator, Bool.or_eq_true, decide_eq_true_eq] at h
  rcases h with ((rfl | rfl) | rfl) | rfl
  all_goals decide

theorem isLineTerminator_toUpper (c : Char) :
    isLineTerminator c.toUpper = isLineTerminator c := by
  rw [Bool.eq_iff_iff]
  simp only [isLineTerminator, Bool.or_eq_true, decide_eq_true_eq]
  rw [toUpper_eq_iff (g := '\n') (by decide) (by decide) c,
    toUpper_eq_iff (g := '\r') (by decide) (by decide) c,
    toUpper_eq_iff (g := '\u2028') (by decide) (by decide) c,
    toUpper_eq_iff (g := '\u2029') (by decide) (by decide) c]

theorem stripSection_map_toUpper (l : List Char) :
    stripSection (l.map Char.toUpper) = (stripSection l).map Char.toUpper := by
  have hs : Char.toUpper '§' = '§' := by decide
  induction l using stripSection.induct with
  | case1 => rfl
  | case2 => decide
  | case3 c rest hc ih =>
    have hcu : Char.toUpper c = c := toUpper_of_lineTerminator hc
    simp only [List.map_cons, hs, hcu] at ih ⊢
    simp [stripSection, hc, ih]
  | case4 c rest hc ih =>
    have hcn : ¬(isLineTerminator (Char.toUpper c) = true) := by
      rw [isLineTerminator_toUpper]
      exact hc
    simp only [List.map_cons, hs]
    simp [stripSection, hcn, hc, ih]
  | case5 c rest hc ih =>
    have hcs : Char.toUpper c ≠ '§' := fun h => hc ((toUpper_eq_iff (by decide) (by decide) c).mp h)
    simp only [List.map_cons]
    rw [show stripSection (c.toUpper :: List.map Char.toUpper rest)
        = c.toUpper :: stripSection (List.map Char.toUpper rest) from by
      rw [stripSection.eq_def]
      simp [hcs]]
    rw [show stripSection (c :: rest) = c :: stripSection rest from by
      rw [stripSection.eq_def]
      simp [hc]]
    simp [ih]

theorem contains_toUpper_eq (g c : Char) (h65 : ¬(g.toNat ≥ 65 ∧ g.toNat ≤ 90))
    (h97 : ¬(g.toNat ≥ 97 ∧ g.toNat ≤ 122)) : (g == c.toUpper) = (g == c) := by
  rw [Bool.eq_iff_iff]
  simp only [beq_iff_eq]
  rw [eq_comm, toUpper_eq_iff h65 h97 c, eq_comm]

theorem glyph_toUpper (c : Char) : glyphSet.contains c.toUpper = glyphSet.contains c := by
  rw [Bool.eq_iff_iff]
  simp only [glyphSet, List.contains, List.elem_eq_mem, decide_eq_true_eq, List.mem_cons,
    List.not_mem_nil, or_false]
  rw [toUpper_eq_iff (g := '★') (by decide) (by decide) c]
  rw [toUpper_eq_iff (g := '$') (by decide) (by decide) c]
  rw [toUpper_eq_iff (g := '🗡') (by decide) (by decide) c]
  rw [toUpper_eq_iff (g := '☠') (by decide) (by decide) c]
  rw [toUpper_eq_iff (g := '⌛') (by decide) (by decide) c]
  rw [toUpper_eq_iff (g := '⌚') (by decide) (by decide) c]

theorem cleanText_toUpper (raw : List Char) : cleanText (raw.map Char.toUpper) = cleanText raw := by
  unfold cleanText
  rw [stripSection_map_toUpper, List.filter_map, List.map_map]
  have hp : ((fun c => !glyphSet.contains c) ∘ Char.toUpper) = (fun c => !glyphSet.contains c) := by
    funext c
    simp only [Function.comp]
    rw [glyph_toUpper]
  have hl : (Char.toLower ∘ Char.toUpper) = Char.toLower := by
    funext c
    exact toLower_toUpper c
  rw [hp, hl]

theorem find_map_same (l : List BotAccount) (id : String) (f : BotAccount → BotAccount)
    (hf : ∀ a, (f a).id = a.id) :
    (l.map (fun a => if a.id == id then f a else a)).find? (fun a => a.id == id)
      = (l.find? (fun a => a.id == id)).map f := by
  induction l with
  | nil => rfl
  | cons a l ih =>
    rw [List.map_cons]
    by_cases h : a.id = id
    · have hb : (a.id == id) = true := by simp [h]
      have hfa : ((f a).id == id) = true := by simp [hf a, h]
      rw [if_pos hb, List.find?_cons_of_pos (p := fun (b : BotAccount) => b.id == id) _ hfa,
        List.find?_cons_of_pos (p := fun (b : BotAccount) => b.id == id) _ hb]
      rfl
    · have hb : (a.id == id) = false := by simp [h]
      rw [if_neg (by simp [hb]), List.find?_cons_of_neg (p := fun (b : BotAccount) => b.id == id) _ (by simp [hb]),
        List.find?_cons_of_neg (p := fun (b : BotAccount) => b.id == id) _ (by simp [hb]), ih]

theorem find_map_other (l : List BotAccount) (id j : String) (f : BotAccount → BotAccount)
    (hf : ∀ a, (f a).id = a.id) (hne : j ≠ id) :
    (l.map (fun a => if a.id == id then f a else a)).find? (fun a => a.id == j)
      = l.find? (fun a => a.id == j) := by
  induction l with
  | nil => rfl
  | cons a l ih =>
    rw [List.map_cons]
    by_cases h : a.id = id
    · have hfa : ((f a).id == j) = false := by simp [hf a, h]; exact fun hj => hne hj.symm
      have haj : (a.id == j) = false := by simp [h]; exact fun hj => hne hj.symm
      rw [if_pos (by simp [h]), List.find?_cons_of_neg (p := fun (b : BotAccount) => b.id == j) _ (by simp [hfa]),
        List.find?_cons_of_neg (p := fun (b : BotAccount) => b.id == j) _ (by simp [haj]), ih]
    · by_cases h2 : a.id = j
      · rw [if_neg (by simp [h]), List.find?_cons_of_pos (p := fun (b : BotAccount) => b.id == j) _ (by simp [h2]),
          List.find?_cons_of_pos (p := fun (b : BotAccount) => b.id == j) _ (by simp [h2])]
      · rw [if_neg (by simp [h]), List.find?_cons_of_neg (p := fun (b : BotAccount) => b.id == j) _ (by simp [h2]),
          List.find?_cons_of_neg (p := fun (b : BotAccount) => b.id == j) _ (by simp [h2]), ih]

theorem findAccount_modify (s : ManagerState) (id : String) (f : BotAccount → BotAccount)
    (hf : ∀ a, (f a).id = a.id) :
    findAccount (modifyAccount s id f) id = (findAccount s id).map f :=
  find_map_same s.accounts id f hf

theorem findAccount_modify_other (s : ManagerState) (id j : String) (f : BotAccount → BotAccount)
    (hf : ∀ a, (f a).id = a.id) (hne : j ≠ id) :
    findAccount (modifyAccount s id f) j = findAccount s j :=
  find_map_other s.accounts id j f hf hne

theorem findAccount_isSome (s : ManagerState) (id : String) :
    (findAccount s id).isSome = mapHasId s id := by
  rw [Bool.eq_iff_iff]
  simp [findAccount, mapHasId, List.find?_isSome, List.any_eq_true]

theorem statGet_statSet (st : BotStats) (k : StatKey) (v : ℚ) :
    statGet (statSet st k v) k = v := by
  cases k <;> rfl

/-!
### C1: the log ring buffer
-/

/-- The invariant `logs.length <= 100` over every account of a state. -/
def LogsBounded (s : ManagerState) : Prop := ∀ a ∈ s.accounts, a.logs.length ≤ 100

instance (s : ManagerState) : Decidable (LogsBounded s) :=
  decidable_of_iff (∀ a ∈ s.accounts, a.logs.length ≤ 100) Iff.rfl

/-- A sequence of `log` calls, each operation a `(now, id, message)` triple,
applied left to right. -/
def runLogs (ops : List (String × String × String)) (s : ManagerState) : ManagerState :=
  ops.foldl (fun st op => (log st op.1 op.2.1 op.2.2).1) s

theorem pushLog_length (logs : List String) (e : String) (h : logs.length ≤ 100) :
    (pushLog logs e).length ≤ 100 := by
  unfold pushLog
  by_cases h1 : (logs ++ [e]).length > 100
  · rw [if_pos h1]
    simp only [List.length_tail, List.length_append, List.length_cons, List.length_nil] at h1 ⊢
    omega
  · rw [if_neg h1]
    simp only [List.length_append, List.length_cons, List.length_nil] at h1 ⊢
    omega

theorem pushLog_full (logs : List String) (e : String) (h : logs.length = 100) :
    pushLog logs e = logs.tail ++ [e] := by
  unfold pushLog
  rw [if_pos]
  · cases logs with
    | nil => simp at h
    | cons a l => simp
  · simp [h]

theorem log_bounded (s : ManagerState) (now id msg : String) (h : LogsBounded s) :
    LogsBounded (log s now id msg).1 := by
  cases hA : findAccount s id with
  | none => simpa [log, hA] using h
  | some a =>
    simp only [log, hA]
    intro b hb
    simp only [modifyAccount, List.mem_map] at hb
    obtain ⟨a0, ha0, rfl⟩ := hb
    by_cases hid : a0.id == id
    · simp only [if_pos hid]
      exact pushLog_length _ _ (h a0 ha0)
    · simp only [if_neg hid]
      exact h a0 ha0

theorem runLogs_bounded (ops : List (String × String × String)) (s : ManagerState)
    (h : LogsBounded s) : LogsBounded (runLogs ops s) := by
  induction ops generalizing s with
  | nil => exact h
  | cons op ops ih => exact ih _ (log_bounded _ _ _ _ h)

/-- Claim **C1**: starting from any state whose accounts all satisfy
`logs.length ≤ 100`, every sequence of log appends preserves the bound, and
an append to an account holding exactly 100 entries evicts exactly the entry
at index 0, keeping the insertion order of the remaining entries (FIFO). -/
theorem c1_log_ring_buffer (s : ManagerState) (ops : List (String × String × String))
    (h : LogsBounded s) :
    LogsBounded (runLogs ops s) ∧
    (∀ now id msg a, findAccount s id = some a → a.logs.length = 100 →
      (findAccount (log s now id msg).1 id).map (fun b => b.logs)
        = some (a.logs.tail ++ [stamped now msg])) := by
  refine ⟨runLogs_bounded ops s h, ?_⟩
  intro now id msg a hA h100
  have h1 : (log s now id msg).1
      = modifyAccount s id (fun b => { b with logs := pushLog b.logs (stamped now msg) }) := by
    simp [log, hA]
  rw [h1, findAccount_modify s id
    (fun b => { b with logs := pushLog b.logs (stamped now msg) }) (fun b => rfl), hA]
  simp [pushLog_full a.logs (stamped now msg) h100]

/-- Witness for C1 at a concrete one-account state. -/
theorem c1_log_ring_buffer_witness :
    LogsBounded (runLogs [("t", "a", "m")]
      ⟨[], [⟨"a", "u", .java, .offline, [], zeroStats⟩], [("a", "u", .java)]⟩) :=
  (c1_log_ring_buffer ⟨[], [⟨"a", "u", .java, .offline, [], zeroStats⟩], [("a", "u", .java)]⟩
    [("t", "a", "m")] (by decide)).1

/-!
### C2: the extractor's numeric-suffix grammar
-/

/-- Claim **C2**: the extractor applied after a recognized label parses
`digits[.digits][k|m|b]` with multipliers 1e3/1e6/1e9: `"Shards 1.22m"`
yields `(shards, 1220000)`, `"nothing relevant"` yields no result,
`"Money 500"` yields `(money, 500)` (and `k`/`b` scale by 1e3/1e9); when no
numeric match follows a recognized label there is also no result. -/
theorem c2_extractor_grammar :
    extractStat "Shards 1.22m" = some (.shards, 1220000) ∧
    extractStat "nothing relevant" = none ∧
    extractStat "Money 500" = some (.money, 500) ∧
    extractStat "money 2k" = some (.money, 2000) ∧
    extractStat "shards 3b" = some (.shards, 3000000000) ∧
    (∀ r : String, ∀ key, findLabel (cleanText r.data) = some key →
      matchFirstNum (trimChars (beforeFirst (labelStr key)
        ((afterFirst (labelStr key) (cleanText r.data)).getD []))) = none →
      extractStat r = none) := by
  refine ⟨by decide, by decide, by decide, by decide, by decide, ?_⟩
  intro r key h1 h2
  unfold extractStat
  by_cases h0 : r = "" ∨ r = "undefined"
  · rw [if_pos h0]
  · rw [if_neg h0]
    simp [h1, h2]

/-- Witness for the no-numeric-match clause of C2: a recognized label with no
number after it produces no result. -/
theorem c2_extractor_grammar_witness : extractStat "money abc" = none :=
  c2_extractor_grammar.2.2.2.2.2 "money abc" .money (by decide) (by decide)

/-!
### C9: label matching across the two extraction paths
-/

/-- C9 as stated is false: the scoreboard-entry path matches its search string
case-sensitively — on `"shards 12"` the search for `'Shards'` reports no
change even though the label occurs case-insensitively — and the chat path
selects the first label of the fixed vocabulary order (money before shards),
not the first label occurring in the text. -/
theorem c9_counterexample :
    (updateNumericStat ("shards 12".data) zeroStats .shards ("Shards".data) = (zeroStats, false)
      ∧ containsSub ("shards".data) (("shards 12".data).map Char.toLower) = true)
    ∧ (extractStat "shards 3 money 4" = some (.money, 4)
      ∧ containsSub ("shards".data) (cleanText ("shards 3 money 4".data)) = true) := by
  exact ⟨⟨by decide, by decide⟩, by decide, by decide⟩

/-- Claim **C9 (amended)**: the chat/teams path case-normalizes the cleaned text, so
its label matching is case-insensitive, and it selects the first label of the
fixed vocabulary order `money`, `shards` that occurs as a substring, yielding
no result (not an error) when neither occurs; the structured scoreboard path
instead matches its search strings case-sensitively, reporting no change when
the exact-case string is absent. -/
theorem c9_label_matching (raw cs : List Char) :
    cleanText (raw.map Char.toUpper) = cleanText raw ∧
    (containsSub ("money".data) cs = true → findLabel cs = some .money) ∧
    (containsSub ("money".data) cs = false → containsSub ("shards".data) cs = true →
      findLabel cs = some .shards) ∧
    (containsSub ("money".data) cs = false → containsSub ("shards".data) cs = false →
      findLabel cs = none) ∧
    (∀ r : String, findLabel (cleanText r.data) = none → extractStat r = none) ∧
    (∀ st key strS, containsSub strS cs = false →
      updateNumericStat cs st key strS = (st, false)) := by
  refine ⟨cleanText_toUpper raw, ?_, ?_, ?_, ?_, ?_⟩
  · intro h
    simp [findLabel, h]
  · intro h1 h2
    simp [findLabel, h1, h2]
  · intro h1 h2
    simp [findLabel, h1, h2]
  · intro r h
    unfold extractStat
    by_cases h0 : r = "" ∨ r = "undefined"
    · rw [if_pos h0]
    · rw [if_neg h0]
      simp [h]
  · intro st key strS h
    unfold updateNumericStat
    simp [h]

/-- Witness for C9 (amended): vocabulary-order selection at a concrete text. -/
theorem c9_label_matching_witness : findLabel ("x shards 1".data) = some StatKey.shards :=
  (c9_label_matching [] ("x shards 1".data)).2.2.1 (by decide) (by decide)

/-!
### C5: snapshot notifications per mutation
-/

/-- C5 as stated is false: removing an account that holds an active
connection handle emits two `update` notifications (one from the log append
inside the embedded disconnect, then one for the removal), not exactly one. -/
theorem c5_counterexample :
    (removeAccount ⟨["a"], [⟨"a", "u", .java, .offline, [], zeroStats⟩], [("a", "u", .java)]⟩
      "t" "a").2.length ≠ 1 := by decide

/-- Claim **C5 (amended)**: a successful add, a log append to an existing
account, and a stat change on either extraction path — the chat-path
`updateStat`, or a scoreboard `scoreUpdated` event that changes a stat —
each emit exactly one `update` notification carrying the full post-mutation
account list (a stat-preserving scoreboard event emits none, and a
scoreboard event never emits more than once); `removeAccount` emits exactly
one such notification when no connection handle is held for the id, and two
when a handle is held for an existing account (the disconnect log, then the
removal), the last carrying the post-removal list. -/
theorem c5_snapshot_notifications (s : ManagerState) (now id username msg raw : String)
    (ty : BotType) (text : List Char) :
    (dbHasId s id = false →
      (addAccount s id username ty).2.1 = [getAccounts (addAccount s id username ty).1]) ∧
    (mapHasId s id = true →
      (log s now id msg).2 = [getAccounts (log s now id msg).1]) ∧
    (∀ a key v, findAccount s id = some a → extractStat raw = some (key, v) →
      statGet a.accountData key ≠ v →
      (updateStat s id raw).2 = [getAccounts (updateStat s id raw).1]) ∧
    (botsHasId s id = false →
      (removeAccount s now id).2 = [getAccounts (removeAccount s now id).1]) ∧
    (botsHasId s id = true → mapHasId s id = true →
      (removeAccount s now id).2.length = 2 ∧
      (removeAccount s now id).2.getLast? = some (getAccounts (removeAccount s now id).1)) ∧
    (∀ a r1 r2, findAccount s id = some a →
      updateNumericStat (stripScoreColor text) a.accountData .shards ("Shards".data) = r1 →
      updateNumericStat (stripScoreColor text) r1.1 .money ("Money".data) = r2 →
      (r1.2 || r2.2) = true →
      (scoreUpdated s id text).2 = [getAccounts (scoreUpdated s id text).1]) ∧
    (∀ a r1 r2, findAccount s id = some a →
      updateNumericStat (stripScoreColor text) a.accountData .shards ("Shards".data) = r1 →
      updateNumericStat (stripScoreColor text) r1.1 .money ("Money".data) = r2 →
      (r1.2 || r2.2) = false →
      (scoreUpdated s id text).2 = []) ∧
    (scoreUpdated s id text).2.length ≤ 1 := by
  refine ⟨?_, ?_, ?_, ?_, ?_, ?_, ?_, ?_⟩
  · intro h
    simp [addAccount, h]
  · intro h
    have h1 : (findAccount s id).isSome = true := by rw [findAccount_isSome, h]
    obtain ⟨a, hA⟩ := Option.isSome_iff_exists.mp h1
    simp [log, hA]
  · intro a key v hA hE hne
    simp [updateStat, hA, hE, hne]
  · intro h
    simp [removeAccount, disconnectBot, h]
  · intro hb hm
    have h1 : (findAccount s id).isSome = true := by rw [findAccount_isSome, hm]
    obtain ⟨a, hA⟩ := Option.isSome_iff_exists.mp h1
    constructor
    · simp [removeAccount, disconnectBot, hb, log, hA]
    · simp [removeAccount, disconnectBot, hb, log, hA]
  · intro a r1 r2 hA hr1 hr2 hc
    simp [scoreUpdated, hA, hr1, hr2, hc]
  · intro a r1 r2 hA hr1 hr2 hc
    simp [scoreUpdated, hA, hr1, hr2, hc]
  · cases hA : findAccount s id with
    | none => simp [scoreUpdated, hA]
    | some a =>
      simp only [scoreUpdated, hA]
      split <;> simp

/-- Witness for C5 (amended) at concrete states, exercising the add clause,
the two-notification removal clause, and the one-notification scoreboard
stat-change clause. -/
theorem c5_snapshot_notifications_witness :
    ((addAccount ⟨[], [], []⟩ "a" "u" BotType.java).2.1
      = [getAccounts (addAccount ⟨[], [], []⟩ "a" "u" BotType.java).1])
    ∧ ((removeAccount ⟨["a"], [⟨"a", "u", BotType.java, .offline, [], zeroStats⟩],
        [("a", "u", BotType.java)]⟩ "t" "a").2.length = 2)
    ∧ ((scoreUpdated ⟨[], [⟨"a", "u", BotType.java, .offline, [], zeroStats⟩],
        [("a", "u", BotType.java)]⟩ "a" ("Shards 7".data)).2
      = [getAccounts (scoreUpdated ⟨[], [⟨"a", "u", BotType.java, .offline, [], zeroStats⟩],
          [("a", "u", BotType.java)]⟩ "a" ("Shards 7".data)).1]) :=
  ⟨(c5_snapshot_notifications ⟨[], [], []⟩ "t" "a" "u" "m" "r" BotType.java []).1 (by decide),
   ((c5_snapshot_notifications ⟨["a"], [⟨"a", "u", BotType.java, .offline, [], zeroStats⟩],
      [("a", "u", BotType.java)]⟩ "t" "a" "u" "m" "r" BotType.java []).2.2.2.2.1
      (by decide) (by decide)).1,
   (c5_snapshot_notifications ⟨[], [⟨"a", "u", BotType.java, .offline, [], zeroStats⟩],
      [("a", "u", BotType.java)]⟩ "t" "a" "u" "m" "r" BotType.java ("Shards 7".data)).2.2.2.2.2.1
     ⟨"a", "u", BotType.java, .offline, [], zeroStats⟩ (⟨7, 0, 0, 0⟩, true) (⟨7, 0, 0, 0⟩, false)
     (by decide) (by decide) (by decide) (by decide)⟩

/-!
### C3: merge idempotence
-/

/-- Claim **C3**: merging an extracted `(key, value)` pair overwrites the stored
stat and emits only when the value differs from the stored one; a second
application of the same text is a no-op (same state, no emission), so two
applications emit at most one notification, exactly one when the first
changed a stored value. -/
theorem c3_merge_idempotent (s : ManagerState) (id raw : String) :
    (updateStat (updateStat s id raw).1 id raw).1 = (updateStat s id raw).1 ∧
    (updateStat (updateStat s id raw).1 id raw).2 = [] ∧
    (updateStat s id raw).2.length ≤ 1 ∧
    ((updateStat s id raw).2 ≠ [] ↔ ∃ a key v, findAccount s id = some a ∧
      extractStat raw = some (key, v) ∧ statGet a.accountData key ≠ v) := by
  cases hA : findAccount s id with
  | none =>
    have h1 : updateStat s id raw = (s, []) := by simp [updateStat, hA]
    refine ⟨by simp [h1], by simp [h1], by simp [h1], ?_⟩
    constructor
    · intro h
      rw [h1] at h
      simp at h
    · rintro ⟨a, key, v, hA2, -, -⟩
      exact Option.noConfusion hA2
  | some a =>
    cases hE : extractStat raw with
    | none =>
      have h1 : updateStat s id raw = (s, []) := by simp [updateStat, hA, hE]
      refine ⟨by simp [h1], by simp [h1], by simp [h1], ?_⟩
      constructor
      · intro h
        rw [h1] at h
        simp at h
      · rintro ⟨b, key, v, -, hE2, -⟩
        exact Option.noConfusion hE2
    | some kv =>
      obtain ⟨key, v⟩ := kv
      by_cases hv : statGet a.accountData key = v
      · have h1 : updateStat s id raw = (s, []) := by simp [updateStat, hA, hE, hv]
        refine ⟨by simp [h1], by simp [h1], by simp [h1], ?_⟩
        constructor
        · intro h
          rw [h1] at h
          simp at h
        · rintro ⟨b, key2, v2, hA2, hE2, hne⟩
          obtain rfl : a = b := Option.some.inj hA2
          obtain ⟨rfl, rfl⟩ : key = key2 ∧ v = v2 := by
            have h := Option.some.inj hE2
            exact ⟨congrArg Prod.fst h, congrArg Prod.snd h⟩
          exact absurd hv hne
      · have h1 : updateStat s id raw
            = (modifyAccount s id (fun b => { b with accountData := statSet b.accountData key v }),
               [getAccounts (modifyAccount s id
                 (fun b => { b with accountData := statSet b.accountData key v }))]) := by
          simp [updateStat, hA, hE, hv]
        have hA2 : findAccount (updateStat s id raw).1 id
            = some { a with accountData := statSet a.accountData key v } := by
          rw [h1, findAccount_modify s id
            (fun b => { b with accountData := statSet b.accountData key v }) (fun b => rfl), hA]
          rfl
        have h2 : updateStat (updateStat s id raw).1 id raw = ((updateStat s id raw).1, []) := by
          set t := (updateStat s id raw).1 with ht
          simp [updateStat, hA2, hE, statGet_statSet]
        refine ⟨by rw [h2], by rw [h2], by rw [h1]; simp, ?_⟩
        constructor
        · intro _
          exact ⟨a, key, v, rfl, rfl, hv⟩
        · intro _
          rw [h1]
          simp


/-!
### C4: the add contract
-/

/-- Claim **C4**: `addAccount` with an id already present fails with the DuplicateId
rejection (the PRIMARY-KEY insert throws before any state is touched) leaving
the table, the map and the handles unchanged and emitting nothing; with a
fresh id it appends the row, mirrors an account with status Offline, empty
logs and all-zero stats, and emits one notification.  The hypothesis records
that the persisted table and the map hold the same ids, which every reachable
state satisfies. -/
theorem c4_addAccount_contract (s : ManagerState) (id username : String) (ty : BotType)
    (hwf : ∀ j, dbHasId s j = mapHasId s j) :
    (mapHasId s id = true →
      addAccount s id username ty = (s, [], .error .duplicateId)) ∧
    (mapHasId s id = false →
      addAccount s id username ty
        = ({ s with db := s.db ++ [(id, username, ty)]
                    accounts := s.accounts ++ [⟨id, username, ty, .offline, [], zeroStats⟩] },
           [s.accounts ++ [⟨id, username, ty, .offline, [], zeroStats⟩]], .ok ())) := by
  constructor
  · intro h
    have hd : dbHasId s id = true := by rw [hwf id, h]
    simp [addAccount, hd]
  · intro h
    have hd : dbHasId s id = false := by rw [hwf id, h]
    have hany : (s.accounts.any (fun b =>
        b.id == (⟨id, username, ty, .offline, [], zeroStats⟩ : BotAccount).id)) = false := by
      simpa [mapHasId] using h
    have hm : mapSet s.accounts ⟨id, username, ty, .offline, [], zeroStats⟩
        = s.accounts ++ [⟨id, username, ty, .offline, [], zeroStats⟩] := by
      unfold mapSet
      rw [if_neg (by simp [hany])]
    simp [addAccount, hd, getAccounts, hm]

/-- Witness for C4: a fresh add on the empty state succeeds and mirrors the
account; the same id added again is rejected with DuplicateId. -/
theorem c4_addAccount_contract_witness :
    addAccount ⟨[], [], []⟩ "a" "u" BotType.java
      = ({ bots := [], accounts := [⟨"a", "u", BotType.java, .offline, [], zeroStats⟩],
           db := [("a", "u", BotType.java)] },
         [[⟨"a", "u", BotType.java, .offline, [], zeroStats⟩]], .ok ())
    ∧ addAccount ⟨[], [⟨"a", "u", BotType.java, .offline, [], zeroStats⟩],
        [("a", "u", BotType.java)]⟩ "a" "u2" BotType.bedrock
      = (⟨[], [⟨"a", "u", BotType.java, .offline, [], zeroStats⟩], [("a", "u", BotType.java)]⟩,
         [], .error .duplicateId) :=
  ⟨(c4_addAccount_contract ⟨[], [], []⟩ "a" "u" BotType.java (fun j => rfl)).2 rfl,
   (c4_addAccount_contract ⟨[], [⟨"a", "u", BotType.java, .offline, [], zeroStats⟩],
      [("a", "u", BotType.java)]⟩ "a" "u2" BotType.bedrock (fun j => by
        simp [dbHasId, mapHasId])).1 (by decide)⟩

/-!
### Connection lifecycle helpers
-/

/-- The catch-branch log text of the two variant openers. -/
def failMsg : BotType → String → String
  | .java, e => "Connection failed: " ++ e
  | .bedrock, e => "Bedrock Connection failed: " ++ e

theorem log_as_modify (s : ManagerState) (now id msg : String) (a : BotAccount)
    (hA : findAccount s id = some a) :
    log s now id msg
      = (modifyAccount s id (fun b => { b with logs := pushLog b.logs (stamped now msg) }),
         [getAccounts (modifyAccount s id
           (fun b => { b with logs := pushLog b.logs (stamped now msg) }))]) := by
  simp [log, hA]

theorem findAccount_setBots (s : ManagerState) (b : List String) (id : String) :
    findAccount { s with bots := b } id = findAccount s id := rfl

/-- The observable outcome of `connectBot` on an existing, not-online account:
the stored account ends Connecting with the connecting entry (and on opener
failure also the failure entry) appended; the handle is stored only on opener
success; the invoked opener is the account's variant. -/
theorem connectBot_state (s : ManagerState) (now sip errMsg : String) (thr : Bool) (id : String)
    (a : BotAccount) (hA : findAccount s id = some a) (hon : a.status ≠ .online) :
    ∃ b, findAccount (connectBot s now sip thr errMsg id).1 id = some b ∧
      b.status = .connecting ∧
      b.logs = (if thr
        then pushLog (pushLog a.logs (stamped now
            ("Connecting to " ++ sip ++ " (" ++ typeName a.type ++ ")...")))
          (stamped now (failMsg a.type errMsg))
        else pushLog a.logs (stamped now
            ("Connecting to " ++ sip ++ " (" ++ typeName a.type ++ ")..."))) ∧
      (connectBot s now sip thr errMsg id).1.bots
        = (if thr then s.bots else botsSet s.bots id) ∧
      (connectBot s now sip thr errMsg id).2.2 = some a.type := by
  by_cases hty : a.type = BotType.java
  · rw [hty]
    have hA1 : findAccount (modifyAccount s id (fun b => { b with status := BotStatus.connecting })) id = some { a with status := BotStatus.connecting } := by
      rw [findAccount_modify s id (fun b => { b with status := BotStatus.connecting })
        (fun b => rfl), hA]
      rfl
    have h2 : log (modifyAccount s id (fun b => { b with status := BotStatus.connecting })) now id ("Connecting to " ++ sip ++ " (" ++ typeName BotType.java ++ ")...")
        = (modifyAccount (modifyAccount s id (fun b => { b with status := BotStatus.connecting })) id (fun b => { b with logs := pushLog b.logs (stamped now ("Connecting to " ++ sip ++ " (" ++ typeName BotType.java ++ ")...")) }), [getAccounts (modifyAccount (modifyAccount s id (fun b => { b with status := BotStatus.connecting })) id (fun b => { b with logs := pushLog b.logs (stamped now ("Connecting to " ++ sip ++ " (" ++ typeName BotType.java ++ ")...")) }))]) :=
      log_as_modify (modifyAccount s id (fun b => { b with status := BotStatus.connecting })) now id ("Connecting to " ++ sip ++ " (" ++ typeName BotType.java ++ ")...") { a with status := BotStatus.connecting } hA1
    have hA2 : findAccount (modifyAccount (modifyAccount s id (fun b => { b with status := BotStatus.connecting })) id (fun b => { b with logs := pushLog b.logs (stamped now ("Connecting to " ++ sip ++ " (" ++ typeName BotType.java ++ ")...")) })) id = some { a with status := BotStatus.connecting, logs := pushLog a.logs (stamped now ("Connecting to " ++ sip ++ " (" ++ typeName BotType.java ++ ")...")) } := by
      rw [findAccount_modify (modifyAccount s id (fun b => { b with status := BotStatus.connecting })) id (fun b => { b with logs := pushLog b.logs (stamped now ("Connecting to " ++ sip ++ " (" ++ typeName BotType.java ++ ")...")) }) (fun b => rfl), hA1]
      rfl
    cases thr with
    | false =>
      have hstate : (connectBot s now sip false errMsg id).1
          = { modifyAccount (modifyAccount s id (fun b => { b with status := BotStatus.connecting })) id (fun b => { b with logs := pushLog b.logs (stamped now ("Connecting to " ++ sip ++ " (" ++ typeName BotType.java ++ ")...")) }) with bots := botsSet (modifyAccount (modifyAccount s id (fun b => { b with status := BotStatus.connecting })) id (fun b => { b with logs := pushLog b.logs (stamped now ("Connecting to " ++ sip ++ " (" ++ typeName BotType.java ++ ")...")) })).bots id } := by
        simp [connectBot, hA, hon, hty, h2, connectJava]
      refine ⟨{ a with status := BotStatus.connecting, logs := pushLog a.logs (stamped now ("Connecting to " ++ sip ++ " (" ++ typeName BotType.java ++ ")...")) }, ?_, rfl, by simp, ?_, ?_⟩
      · rw [hstate, findAccount_setBots]
        exact hA2
      · rw [hstate]
        simp [botsSet, modifyAccount]
      · simp [connectBot, hA, hon, hty]
    | true =>
      have h3 : log (modifyAccount (modifyAccount s id (fun b => { b with status := BotStatus.connecting })) id (fun b => { b with logs := pushLog b.logs (stamped now ("Connecting to " ++ sip ++ " (" ++ typeName BotType.java ++ ")...")) })) now id ("Connection failed: " ++ errMsg)
          = (modifyAccount (modifyAccount (modifyAccount s id (fun b => { b with status := BotStatus.connecting })) id (fun b => { b with logs := pushLog b.logs (stamped now ("Connecting to " ++ sip ++ " (" ++ typeName BotType.java ++ ")...")) })) id (fun b => { b with logs := pushLog b.logs (stamped now ("Connection failed: " ++ errMsg)) }), [getAccounts (modifyAccount (modifyAccount (modifyAccount s id (fun b => { b with status := BotStatus.connecting })) id (fun b => { b with logs := pushLog b.logs (stamped now ("Connecting to " ++ sip ++ " (" ++ typeName BotType.java ++ ")...")) })) id (fun b => { b with logs := pushLog b.logs (stamped now ("Connection failed: " ++ errMsg)) }))]) :=
        log_as_modify (modifyAccount (modifyAccount s id (fun b => { b with status := BotStatus.connecting })) id (fun b => { b with logs := pushLog b.logs (stamped now ("Connecting to " ++ sip ++ " (" ++ typeName BotType.java ++ ")...")) })) now id ("Connection failed: " ++ errMsg) { a with status := BotStatus.connecting, logs := pushLog a.logs (stamped now ("Connecting to " ++ sip ++ " (" ++ typeName BotType.java ++ ")...")) } hA2
      have hA3 : findAccount (modifyAccount (modifyAccount (modifyAccount s id (fun b => { b with status := BotStatus.connecting })) id (fun b => { b with logs := pushLog b.logs (stamped now ("Connecting to " ++ sip ++ " (" ++ typeName BotType.java ++ ")...")) })) id (fun b => { b with logs := pushLog b.logs (stamped now ("Connection failed: " ++ errMsg)) })) id = some { a with status := BotStatus.connecting, logs := pushLog (pushLog a.logs (stamped now ("Connecting to " ++ sip ++ " (" ++ typeName BotType.java ++ ")..."))) (stamped now ("Connection failed: " ++ errMsg)) } := by
        rw [findAccount_modify (modifyAccount (modifyAccount s id (fun b => { b with status := BotStatus.connecting })) id (fun b => { b with logs := pushLog b.logs (stamped now ("Connecting to " ++ sip ++ " (" ++ typeName BotType.java ++ ")...")) })) id (fun b => { b with logs := pushLog b.logs (stamped now ("Connection failed: " ++ errMsg)) }) (fun b => rfl), hA2]
        rfl
      have hstate : (connectBot s now sip true errMsg id).1 = modifyAccount (modifyAccount (modifyAccount s id (fun b => { b with status := BotStatus.connecting })) id (fun b => { b with logs := pushLog b.logs (stamped now ("Connecting to " ++ sip ++ " (" ++ typeName BotType.java ++ ")...")) })) id (fun b => { b with logs := pushLog b.logs (stamped now ("Connection failed: " ++ errMsg)) }) := by
        simp [connectBot, hA, hon, hty, h2, connectJava, h3]
      refine ⟨{ a with status := BotStatus.connecting, logs := pushLog (pushLog a.logs (stamped now ("Connecting to " ++ sip ++ " (" ++ typeName BotType.java ++ ")..."))) (stamped now ("Connection failed: " ++ errMsg)) }, ?_, rfl, by simp [failMsg], ?_, ?_⟩
      · rw [hstate]
        exact hA3
      · rw [hstate]
        simp [modifyAccount]
      · simp [connectBot, hA, hon, hty]
  · have hty2 : a.type = BotType.bedrock := by
      cases htyc : a.type with
      | java => exact absurd htyc hty
      | bedrock => rfl
    clear hty
    rename' hty2 => hty
    rw [hty]
    have hA1 : findAccount (modifyAccount s id (fun b => { b with status := BotStatus.connecting })) id = some { a with status := BotStatus.connecting } := by
      rw [findAccount_modify s id (fun b => { b with status := BotStatus.connecting })
        (fun b => rfl), hA]
      rfl
    have h2 : log (modifyAccount s id (fun b => { b with status := BotStatus.connecting })) now id ("Connecting to " ++ sip ++ " (" ++ typeName BotType.bedrock ++ ")...")
        = (modifyAccount (modifyAccount s id (fun b => { b with status := BotStatus.connecting })) id (fun b => { b with logs := pushLog b.logs (stamped now ("Connecting to " ++ sip ++ " (" ++ typeName BotType.bedrock ++ ")...")) }), [getAccounts (modifyAccount (modifyAccount s id (fun b => { b with status := BotStatus.connecting })) id (fun b => { b with logs := pushLog b.logs (stamped now ("Connecting to " ++ sip ++ " (" ++ typeName BotType.bedrock ++ ")...")) }))]) :=
      log_as_modify (modifyAccount s id (fun b => { b with status := BotStatus.connecting })) now id ("Connecting to " ++ sip ++ " (" ++ typeName BotType.bedrock ++ ")...") { a with status := BotStatus.connecting } hA1
    have hA2 : findAccount (modifyAccount (modifyAccount s id (fun b => { b with status := BotStatus.connecting })) id (fun b => { b with logs := pushLog b.logs (stamped now ("Connecting to " ++ sip ++ " (" ++ typeName BotType.bedrock ++ ")...")) })) id = some { a with status := BotStatus.connecting, logs := pushLog a.logs (stamped now ("Connecting to " ++ sip ++ " (" ++ typeName BotType.bedrock ++ ")...")) } := by
      rw [findAccount_modify (modifyAccount s id (fun b => { b with status := BotStatus.connecting })) id (fun b => { b with logs := pushLog b.logs (stamped now ("Connecting to " ++ sip ++ " (" ++ typeName BotType.bedrock ++ ")...")) }) (fun b => rfl), hA1]
      rfl
    cases thr with
    | false =>
      have hstate : (connectBot s now sip false errMsg id).1
          = { modifyAccount (modifyAccount s id (fun b => { b with status := BotStatus.connecting })) id (fun b => { b with logs := pushLog b.logs (stamped now ("Connecting to " ++ sip ++ " (" ++ typeName BotType.bedrock ++ ")...")) }) with bots := botsSet (modifyAccount (modifyAccount s id (fun b => { b with status := BotStatus.connecting })) id (fun b => { b with logs := pushLog b.logs (stamped now ("Connecting to " ++ sip ++ " (" ++ typeName BotType.bedrock ++ ")...")) })).bots id } := by
        simp [connectBot, hA, hon, hty, h2, connectBedrock]
      refine ⟨{ a with status := BotStatus.connecting, logs := pushLog a.logs (stamped now ("Connecting to " ++ sip ++ " (" ++ typeName BotType.bedrock ++ ")...")) }, ?_, rfl, by simp, ?_, ?_⟩
      · rw [hstate, findAccount_setBots]
        exact hA2
      · rw [hstate]
        simp [botsSet, modifyAccount]
      · simp [connectBot, hA, hon, hty]
    | true =>
      have h3 : log (modifyAccount (modifyAccount s id (fun b => { b with status := BotStatus.connecting })) id (fun b => { b with logs := pushLog b.logs (stamped now ("Connecting to " ++ sip ++ " (" ++ typeName BotType.bedrock ++ ")...")) })) now id ("Bedrock Connection failed: " ++ errMsg)
          = (modifyAccount (modifyAccount (modifyAccount s id (fun b => { b with status := BotStatus.connecting })) id (fun b => { b with logs := pushLog b.logs (stamped now ("Connecting to " ++ sip ++ " (" ++ typeName BotType.bedrock ++ ")...")) })) id (fun b => { b with logs := pushLog b.logs (stamped now ("Bedrock Connection failed: " ++ errMsg)) }), [getAccounts (modifyAccount (modifyAccount (modifyAccount s id (fun b => { b with status := BotStatus.connecting })) id (fun b => { b with logs := pushLog b.logs (stamped now ("Connecting to " ++ sip ++ " (" ++ typeName BotType.bedrock ++ ")...")) })) id (fun b => { b with logs := pushLog b.logs (stamped now ("Bedrock Connection failed: " ++ errMsg)) }))]) :=
        log_as_modify (modifyAccount (modifyAccount s id (fun b => { b with status := BotStatus.connecting })) id (fun b => { b with logs := pushLog b.logs (stamped now ("Connecting to " ++ sip ++ " (" ++ typeName BotType.bedrock ++ ")...")) })) now id ("Bedrock Connection failed: " ++ errMsg) { a with status := BotStatus.connecting, logs := pushLog a.logs (stamped now ("Connecting to " ++ sip ++ " (" ++ typeName BotType.bedrock ++ ")...")) } hA2
      have hA3 : findAccount (modifyAccount (modifyAccount (modifyAccount s id (fun b => { b with status := BotStatus.connecting })) id (fun b => { b with logs := pushLog b.logs (stamped now ("Connecting to " ++ sip ++ " (" ++ typeName BotType.bedrock ++ ")...")) })) id (fun b => { b with logs := pushLog b.logs (stamped now ("Bedrock Connection failed: " ++ errMsg)) })) id = some { a with status := BotStatus.connecting, logs := pushLog (pushLog a.logs (stamped now ("Connecting to " ++ sip ++ " (" ++ typeName BotType.bedrock ++ ")..."))) (stamped now ("Bedrock Connection failed: " ++ errMsg)) } := by
        rw [findAccount_modify (modifyAccount (modifyAccount s id (fun b => { b with status := BotStatus.connecting })) id (fun b => { b with logs := pushLog b.logs (stamped now ("Connecting to " ++ sip ++ " (" ++ typeName BotType.bedrock ++ ")...")) })) id (fun b => { b with logs := pushLog b.logs (stamped now ("Bedrock Connection failed: " ++ errMsg)) }) (fun b => rfl), hA2]
        rfl
      have hstate : (connectBot s now sip true errMsg id).1 = modifyAccount (modifyAccount (modifyAccount s id (fun b => { b with status := BotStatus.connecting })) id (fun b => { b with logs := pushLog b.logs (stamped now ("Connecting to " ++ sip ++ " (" ++ typeName BotType.bedrock ++ ")...")) })) id (fun b => { b with logs := pushLog b.logs (stamped now ("Bedrock Connection failed: " ++ errMsg)) }) := by
        simp [connectBot, hA, hon, hty, h2, connectBedrock, h3]
      refine ⟨{ a with status := BotStatus.connecting, logs := pushLog (pushLog a.logs (stamped now ("Connecting to " ++ sip ++ " (" ++ typeName BotType.bedrock ++ ")..."))) (stamped now ("Bedrock Connection failed: " ++ errMsg)) }, ?_, rfl, by simp [failMsg], ?_, ?_⟩
      · rw [hstate]
        exact hA3
      · rw [hstate]
        simp [modifyAccount]
      · simp [connectBot, hA, hon, hty]

/-!
### C6: the connect guard
-/

/-- Claim **C6**: `connectBot` is a no-op — no state change, no log, no
notification — when the account is missing or already online; otherwise it
sets the status to Connecting and appends the connecting log entry, and only
then invokes the account's variant-specific opener. -/
theorem c6_connectBot_guard (s : ManagerState) (now sip errMsg : String) (thr : Bool)
    (id : String) :
    (findAccount s id = none → connectBot s now sip thr errMsg id = (s, [], none)) ∧
    (∀ a, findAccount s id = some a → a.status = .online →
      connectBot s now sip thr errMsg id = (s, [], none)) ∧
    (∀ a, findAccount s id = some a → a.status ≠ .online →
      (connectBot s now sip thr errMsg id).2.2 = some a.type ∧
      (findAccount (connectBot s now sip thr errMsg id).1 id).map (fun b => b.status)
        = some .connecting ∧
      (thr = false →
        (findAccount (connectBot s now sip thr errMsg id).1 id).map (fun b => b.logs)
          = some (pushLog a.logs (stamped now
              ("Connecting to " ++ sip ++ " (" ++ typeName a.type ++ ")..."))))) := by
  refine ⟨?_, ?_, ?_⟩
  · intro h
    simp [connectBot, h]
  · intro a hA hon
    simp [connectBot, hA, hon]
  · intro a hA hon
    obtain ⟨b, hfind, hst, hlogs, -, hty⟩ := connectBot_state s now sip errMsg thr id a hA hon
    refine ⟨hty, ?_, ?_⟩
    · rw [hfind]
      simp [hst]
    · intro hthr
      subst hthr
      rw [hfind]
      simp only [Bool.false_eq_true, if_false] at hlogs
      simp [hlogs]

/-- Witness for C6: connecting an offline java account invokes the java
opener. -/
theorem c6_connectBot_guard_witness :
    (connectBot ⟨[], [⟨"a", "u", BotType.java, .offline, [], zeroStats⟩],
      [("a", "u", BotType.java)]⟩ "t" "h" false "e" "a").2.2 = some BotType.java :=
  ((c6_connectBot_guard ⟨[], [⟨"a", "u", BotType.java, .offline, [], zeroStats⟩],
      [("a", "u", BotType.java)]⟩ "t" "h" "e" false "a").2.2
    ⟨"a", "u", BotType.java, .offline, [], zeroStats⟩ (by decide) (by decide)).1

/-!
### C7: the disconnect contract
-/

/-- Claim **C7**: `disconnectBot` is a no-op when no active handle exists; with a
handle it appends the disconnecting log entry, issues the variant-specific
graceful close (`quit` for java accounts, `close` otherwise), and discards
the handle, leaving the persisted table, every other account, and the
account's status, stats and identity fields unchanged — it never sets
`status` itself. -/
theorem c7_disconnectBot_contract (s : ManagerState) (now id : String) :
    (botsHasId s id = false → disconnectBot s now id = (s, [], none)) ∧
    (botsHasId s id = true →
      (disconnectBot s now id).1.bots = s.bots.filter (fun b => !(b == id)) ∧
      (disconnectBot s now id).1.db = s.db ∧
      (∀ j, j ≠ id → findAccount (disconnectBot s now id).1 j = findAccount s j) ∧
      (∀ a, findAccount s id = some a →
        (disconnectBot s now id).2.2
          = some (if a.type = BotType.java then CloseKind.quit else CloseKind.close) ∧
        findAccount (disconnectBot s now id).1 id
          = some { a with logs := pushLog a.logs (stamped now "🔌 Disconnecting manually...") }) ∧
      (findAccount s id = none → (disconnectBot s now id).1.accounts = s.accounts)) := by
  constructor
  · intro h
    simp [disconnectBot, h]
  · intro hb
    cases hA : findAccount s id with
    | none =>
      have hd : disconnectBot s now id
          = ({ s with bots := s.bots.filter (fun b => !(b == id)) }, [], some CloseKind.close) := by
        simp [disconnectBot, hb, log, hA]
      rw [hd]
      refine ⟨rfl, rfl, fun j _ => rfl, ?_, fun _ => rfl⟩
      intro a hA2
      exact Option.noConfusion hA2
    | some a =>
      have hp : log s now id "🔌 Disconnecting manually..."
          = (modifyAccount s id (fun b =>
              { b with logs := pushLog b.logs (stamped now "🔌 Disconnecting manually...") }),
             [getAccounts (modifyAccount s id (fun b =>
              { b with logs := pushLog b.logs (stamped now "🔌 Disconnecting manually...") }))]) :=
        log_as_modify s now id "🔌 Disconnecting manually..." a hA
      have hfind : findAccount (modifyAccount s id (fun b =>
            { b with logs := pushLog b.logs (stamped now "🔌 Disconnecting manually...") })) id
          = some { a with logs := pushLog a.logs (stamped now "🔌 Disconnecting manually...") } := by
        rw [findAccount_modify s id (fun b =>
          { b with logs := pushLog b.logs (stamped now "🔌 Disconnecting manually...") })
          (fun b => rfl), hA]
        rfl
      have hck : (if (findAccount (modifyAccount s id (fun b =>
            { b with logs := pushLog b.logs (stamped now "🔌 Disconnecting manually...") })) id).map
            (fun x => x.type) = some BotType.java
          then CloseKind.quit else CloseKind.close)
          = (if a.type = BotType.java then CloseKind.quit else CloseKind.close) := by
        rw [hfind]
        by_cases hty : a.type = BotType.java
        · simp [hty]
        · simp [hty]
      have hd : disconnectBot s now id
          = ({ modifyAccount s id (fun b =>
                { b with logs := pushLog b.logs (stamped now "🔌 Disconnecting manually...") }) with
                bots := (modifyAccount s id (fun b =>
                  { b with logs := pushLog b.logs (stamped now "🔌 Disconnecting manually...") })).bots.filter
                  (fun b => !(b == id)) },
             [getAccounts (modifyAccount s id (fun b =>
               { b with logs := pushLog b.logs (stamped now "🔌 Disconnecting manually...") }))],
             some (if a.type = BotType.java then CloseKind.quit else CloseKind.close)) := by
        have hmap : (findAccount (modifyAccount s id (fun b =>
            { b with logs := pushLog b.logs (stamped now "🔌 Disconnecting manually...") })) id).map
            (fun x => x.type) = some a.type := by
          rw [hfind]
          rfl
        simp [disconnectBot, hb, hp, hmap]
      rw [hd]
      refine ⟨by simp [modifyAccount], rfl, ?_, ?_, ?_⟩
      · intro j hj
        rw [findAccount_setBots]
        exact findAccount_modify_other s id j _ (fun b => rfl) hj
      · intro a2 hA2
        obtain rfl : a = a2 := Option.some.inj hA2
        refine ⟨rfl, ?_⟩
        rw [findAccount_setBots]
        exact hfind
      · intro hnone
        exact Option.noConfusion hnone

/-- Witness for C7: disconnecting a live java handle issues `quit` and keeps
the account's status untouched. -/
theorem c7_disconnectBot_contract_witness :
    (disconnectBot ⟨["a"], [⟨"a", "u", BotType.java, .offline, [], zeroStats⟩],
      [("a", "u", BotType.java)]⟩ "t" "a").2.2
      = some (if (⟨"a", "u", BotType.java, .offline, [], zeroStats⟩ : BotAccount).type
          = BotType.java then CloseKind.quit else CloseKind.close) :=
  (((c7_disconnectBot_contract ⟨["a"], [⟨"a", "u", BotType.java, .offline, [], zeroStats⟩],
      [("a", "u", BotType.java)]⟩ "t" "a").2 (by decide)).2.2.2.1
    ⟨"a", "u", BotType.java, .offline, [], zeroStats⟩ (by decide)).1

/-!
### C8: opener failures are caught
-/

/-- Claim **C8**: when the variant-specific opener throws at construction time,
`connectBot` still returns normally — the exception is caught inside the
variant handler's try/catch, embedded here as the total failure branch of
`connectJava`/`connectBedrock` — a failure entry is appended to the account's
logs after the connecting entry, the status is left as Connecting (no
automatic transition to Error or Offline), and no handle is stored. -/
theorem c8_opener_failure (s : ManagerState) (now sip errMsg id : String) (a : BotAccount)
    (hA : findAccount s id = some a) (hon : a.status ≠ .online) :
    (findAccount (connectBot s now sip true errMsg id).1 id).map (fun b => b.status)
      = some .connecting ∧
    (findAccount (connectBot s now sip true errMsg id).1 id).map (fun b => b.logs)
      = some (pushLog (pushLog a.logs (stamped now
          ("Connecting to " ++ sip ++ " (" ++ typeName a.type ++ ")...")))
          (stamped now (failMsg a.type errMsg))) ∧
    (connectBot s now sip true errMsg id).1.bots = s.bots := by
  obtain ⟨b, hfind, hst, hlogs, hbots, -⟩ := connectBot_state s now sip errMsg true id a hA hon
  simp only [if_true] at hlogs hbots
  refine ⟨by rw [hfind]; simp [hst], by rw [hfind]; simp [hlogs], hbots⟩

/-- Witness for C8: a throwing opener on an offline java account leaves no
handle stored. -/
theorem c8_opener_failure_witness :
    (connectBot ⟨[], [⟨"a", "u", BotType.java, .offline, [], zeroStats⟩],
      [("a", "u", BotType.java)]⟩ "t" "h" true "e" "a").1.bots = [] :=
  (c8_opener_failure ⟨[], [⟨"a", "u", BotType.java, .offline, [], zeroStats⟩],
    [("a", "u", BotType.java)]⟩ "t" "h" "e" "a"
    ⟨"a", "u", BotType.java, .offline, [], zeroStats⟩ (by decide) (by decide)).2.2

/-!
### C10: removing a missing id
-/

/-- Claim **C10**: `removeAccount` on an id absent from the account map (and from
the persisted table, which in every reachable state holds the same ids)
leaves the map, the table and every account unchanged, yet still emits
exactly one `update` notification carrying the unchanged full account
list. -/
theorem c10_remove_missing (s : ManagerState) (now id : String)
    (hm : mapHasId s id = false) (hd : dbHasId s id = false) :
    (removeAccount s now id).1.accounts = s.accounts ∧
    (removeAccount s now id).1.db = s.db ∧
    (removeAccount s now id).2 = [s.accounts] := by
  have hA : findAccount s id = none := by
    have h := findAccount_isSome s id
    rw [hm] at h
    exact Option.not_isSome_iff_eq_none.mp (by simp [h])
  have hacc : s.accounts.filter (fun a => !(a.id == id)) = s.accounts := by
    rw [List.filter_eq_self]
    intro b hb
    have hm2 : s.accounts.any (fun a => a.id == id) = false := hm
    have hb2 := List.any_eq_false.mp hm2 b hb
    simpa using hb2
  have hdb : s.db.filter (fun r => !(r.1 == id)) = s.db := by
    rw [List.filter_eq_self]
    intro r hr
    have hd2 : s.db.any (fun r => r.1 == id) = false := hd
    have hr2 := List.any_eq_false.mp hd2 r hr
    simpa using hr2
  by_cases hb : botsHasId s id
  · have hrem : removeAccount s now id
        = ({ s with bots := s.bots.filter (fun b => !(b == id))
                    accounts := s.accounts.filter (fun a => !(a.id == id))
                    db := s.db.filter (fun r => !(r.1 == id)) },
           [s.accounts.filter (fun a => !(a.id == id))]) := by
      simp [removeAccount, disconnectBot, hb, log, hA, getAccounts]
    rw [hrem]
    exact ⟨hacc, hdb, by rw [hacc]⟩
  · have hrem : removeAccount s now id
        = ({ s with accounts := s.accounts.filter (fun a => !(a.id == id))
                    db := s.db.filter (fun r => !(r.1 == id)) },
           [s.accounts.filter (fun a => !(a.id == id))]) := by
      simp [removeAccount, disconnectBot, hb, getAccounts]
    rw [hrem]
    exact ⟨hacc, hdb, by rw [hacc]⟩

/-- Witness for C10: removing an absent id emits the unchanged snapshot. -/
theorem c10_remove_missing_witness :
    (removeAccount ⟨[], [⟨"b", "u", BotType.java, .offline, [], zeroStats⟩],
      [("b", "u", BotType.java)]⟩ "t" "a").2
      = [[⟨"b", "u", BotType.java, .offline, [], zeroStats⟩]] :=
  (c10_remove_missing ⟨[], [⟨"b", "u", BotType.java, .offline, [], zeroStats⟩],
    [("b", "u", BotType.java)]⟩ "t" "a" (by decide) (by decide)).2.2

end MCDashboard
